import Mathlib

/-!
Verification of `process_transcription.py`: a row-by-row transform from CSV
records to SQL INSERT statements, plus the CLI driver `main`.

The embedding works at the record level: the csv reader yields a list of
records (each a list of string fields).  `process_transcription` models the
function of the same name in the source; reading zero records makes the
header skip fail (Python raises StopIteration from `next(reader)`), which we
model as `Except.error`.  `runMain` models the printing structure of `main`:
the whole statement list is built before anything is written to stdout.
-/

deriving instance DecidableEq for Except

/-- The single-quote character, written with a hex escape. -/
def sqc : Char := ('\x27')

/-- The single-quote character as a one-character string. -/
def sqs : String := String.singleton sqc

/-- Python `str.isspace`-style whitespace recognizer restricted to the ASCII
whitespace characters stripped by `str.strip()`: space, tab, newline,
carriage return, vertical tab, form feed. -/
def pyIsSpace (c : Char) : Bool :=
  c = (' ') || c = ('\t') || c = ('\n') || c = ('\r') || c = ('\x0b') || c = ('\x0c')

/-- Models the replace call on source line 18 at the character-list level:
every single-quote character is doubled, all other characters are kept. -/
def escQuotes : List Char → List Char
  | [] => []
  | c :: cs => if c = sqc then sqc :: sqc :: escQuotes cs else c :: escQuotes cs

/-- Remove trailing whitespace (the right half of Python `str.strip()`). -/
def dropTrailWs (l : List Char) : List Char :=
  (l.reverse.dropWhile pyIsSpace).reverse

/-- Python `str.strip()` on a character list: drop leading whitespace, then
trailing whitespace. -/
def pyStripL (l : List Char) : List Char :=
  dropTrailWs (l.dropWhile pyIsSpace)

/-- Python `str.strip()` on strings. -/
def pyStrip (s : String) : String :=
  String.mk (pyStripL s.data)

/-- Line 18 of the source: replace, then strip — the escaping happens
BEFORE the whitespace stripping. -/
def escapedText (t : String) : String :=
  pyStrip (String.mk (escQuotes t.data))

/-- The exact statement text built by the triple-quoted f-string on source
lines 19–20: the INSERT head, a trailing space, a newline, 23 spaces of
indentation, then the VALUES clause.  `text` is the already-escaped text. -/
def mkSql (content_id start endT text : String) : String :=
  ("INSERT INTO transcriptions (content_id, text, start_time, end_time) \n                       VALUES (")
    ++ sqs ++ content_id ++ sqs ++ (", ") ++ sqs ++ text ++ sqs ++ (", ")
    ++ start ++ (", ") ++ endT ++ (");")

/-- A record passes validation when it has at least 3 fields and fields 0, 1
and 2 are non-empty (source lines 12–16). -/
def validRow (row : List String) : Bool :=
  decide (3 ≤ row.length) && row.getD 0 ("") != ("") && row.getD 1 ("") != ("")
    && row.getD 2 ("") != ("")

/-- The statement a valid record produces (source lines 13, 18–20). -/
def stmtOf (content_id : String) (row : List String) : String :=
  mkSql content_id (row.getD 0 ("")) (row.getD 1 ("")) (escapedText (row.getD 2 ("")))

/-- The `for row in reader` loop of `process_transcription` (source lines
7–21), with the accumulated `sql_statements` list made explicit. -/
def processLoop (content_id : String) (acc : List String) : List (List String) → List String
  | [] => acc
  | row :: rest =>
    if 3 ≤ row.length then
      let start := row.getD 0 ("")
      let endT := row.getD 1 ("")
      let text := row.getD 2 ("")
      if start == ("") || endT == ("") || text == ("") then
        processLoop content_id acc rest
      else
        processLoop content_id (acc ++ [mkSql content_id start endT (escapedText text)]) rest
    else
      processLoop content_id acc rest

/-- `process_transcription` at the record level.  `next(reader)` on line 10
discards the first record; on an empty record stream it raises
StopIteration, modelled as `Except.error`. -/
def process_transcription (records : List (List String)) (content_id : String) :
    Except String (List String) :=
  match records with
  | [] => Except.error ("StopIteration")
  | _header :: rows => Except.ok (processLoop content_id [] rows)

/-- Observable outcome of one run of `main` (source lines 36–44): the lines
written to stdout, the lines written to stderr, and the exit code. -/
structure RunResult where
  stdout : List String
  stderr : List String
  exitCode : Nat
  deriving DecidableEq, Repr

/-- `main`, lines 36–44: the statement list is fully built by the call on
line 37 before the first print on line 38; on any error the except branch
writes only to stderr and exits 1. -/
def runMain (records : List (List String)) (content_id : String) : RunResult :=
  match process_transcription records content_id with
  | Except.ok stmts => ⟨("BEGIN;") :: stmts ++ [("COMMIT;")], [], 0⟩
  | Except.error e => ⟨[], [("Error processing file: ") ++ e], 1⟩

/-! ### Core lemma: the loop is filter-then-map -/

theorem processLoop_eq (cid : String) (acc : List String) (rows : List (List String)) :
    processLoop cid acc rows = acc ++ (rows.filter validRow).map (stmtOf cid) := by
  induction rows generalizing acc with
  | nil => simp [processLoop]
  | cons row rest ih =>
    by_cases h3 : 3 ≤ row.length
    · by_cases h0 : row[0]?.getD ("") = ("")
      · simp [processLoop, h3, h0, validRow, ih, List.getD]
      · by_cases h1 : row[1]?.getD ("") = ("")
        · simp [processLoop, h3, h0, h1, validRow, ih, List.getD]
        · by_cases h2 : row[2]?.getD ("") = ("")
          · simp [processLoop, h3, h0, h1, h2, validRow, ih, List.getD]
          · simp [processLoop, h3, h0, h1, h2, validRow, ih, stmtOf, List.getD]
    · simp [processLoop, h3, validRow, ih]

theorem length_filter_sub {α : Type} (p : α → Bool) (l : List α) :
    (l.filter p).length = l.length - (l.filter (fun a => !(p a))).length := by
  induction l with
  | nil => rfl
  | cons a t ih =>
    have hle : (t.filter (fun a => !(p a))).length ≤ t.length :=
      List.length_filter_le _ t
    cases h : p a <;> simp [List.filter_cons, h, ih] <;> omega

theorem process_cons (cid : String) (r0 : List String) (rows : List (List String)) :
    process_transcription (r0 :: rows) cid =
      Except.ok ((rows.filter validRow).map (stmtOf cid)) := by
  simp [process_transcription, processLoop_eq]

theorem process_pair (cid start endT text : String) (rest r0 : List String)
    (h1 : start ≠ ("")) (h2 : endT ≠ ("")) (h3 : text ≠ ("")) :
    process_transcription [r0, start :: endT :: text :: rest] cid =
      Except.ok [mkSql cid start endT (escapedText text)] := by
  have hlen : 3 ≤ (start :: endT :: text :: rest).length := by
    simp [List.length_cons]
  simp [process_transcription, processLoop, hlen, h1, h2, h3]

/-! ### Claim theorems: header handling, counts, scenario A, error paths -/

/-- Claim C2: the first record never contributes an output statement
regardless of its content, and each later record contributes exactly one
statement iff it has at least 3 fields with fields 0, 1, 2 non-empty
(untrimmed); failing records are skipped silently with no error. -/
theorem header_skipped_and_rows_validated (r0 r0' : List String)
    (rows : List (List String)) (cid : String) :
    process_transcription (r0 :: rows) cid = process_transcription (r0' :: rows) cid ∧
    process_transcription (r0 :: rows) cid =
      Except.ok ((rows.filter validRow).map (stmtOf cid)) := by
  refine ⟨?_, process_cons cid r0 rows⟩
  rw [process_cons, process_cons]

/-- Claim C4: the number of output statements equals the number of non-header
rows minus the number of invalid rows, is at most the input row count minus
one, and each statement is the image of exactly one validated row. -/
theorem output_count_invariant (cid : String) (r0 : List String)
    (rows : List (List String)) :
    ∃ out, process_transcription (r0 :: rows) cid = Except.ok out ∧
      out = (rows.filter validRow).map (stmtOf cid) ∧
      out.length = rows.length - (rows.filter (fun r => !(validRow r))).length ∧
      out.length ≤ (r0 :: rows).length - 1 := by
  refine ⟨(rows.filter validRow).map (stmtOf cid), process_cons cid r0 rows, rfl, ?_, ?_⟩
  · simp only [List.length_map]
    exact length_filter_sub validRow rows
  · simp only [List.length_map, List.length_cons, Nat.add_sub_cancel]
    exact Nat.le_trans (List.length_filter_le validRow rows) (Nat.le_refl rows.length)

/-- Claim C5 (Scenario A): a header row plus the rows (0.0, 1.5, Hello) and
(1.5, 3.0, It+quote+s fine) with content id abc123 yield exactly two
statements, and the text literal of the second carries the doubled quote. -/
theorem scenario_A :
    process_transcription
        [["start", "end", "text"], ["0.0", "1.5", "Hello"],
          ["1.5", "3.0", ("It") ++ sqs ++ ("s fine")]] ("abc123") =
      Except.ok
        [("INSERT INTO transcriptions (content_id, text, start_time, end_time) \n                       VALUES (")
            ++ sqs ++ ("abc123") ++ sqs ++ (", ") ++ sqs ++ ("Hello") ++ sqs
            ++ (", 0.0, 1.5);"),
          ("INSERT INTO transcriptions (content_id, text, start_time, end_time) \n                       VALUES (")
            ++ sqs ++ ("abc123") ++ sqs ++ (", ") ++ sqs ++ ("It") ++ sqs ++ sqs
            ++ ("s fine") ++ sqs ++ (", 1.5, 3.0);")] ∧
    escapedText (("It") ++ sqs ++ ("s fine")) = ("It") ++ sqs ++ sqs ++ ("s fine") := by
  constructor <;> rfl

/-- Claim C9: with zero input records even the header skip fails
(StopIteration), so the run takes the error path: exit code 1 and no
`BEGIN;`/`COMMIT;` on stdout. -/
theorem empty_input_takes_error_path (cid : String) :
    process_transcription [] cid = Except.error ("StopIteration") ∧
    (runMain [] cid).stdout = [] ∧ (runMain [] cid).exitCode = 1 :=
  ⟨rfl, rfl, rfl⟩

/-- Claim C10: when the transform fails, `main` has printed nothing to
stdout — the statement list is fully built before the first `BEGIN;` print,
so no truncated transaction block can appear. -/
theorem no_stdout_on_error (records : List (List String)) (cid : String)
    (h : ∃ e, process_transcription records cid = Except.error e) :
    (runMain records cid).stdout = [] ∧ (runMain records cid).exitCode = 1 := by
  obtain ⟨e, he⟩ := h
  simp [runMain, he]

theorem no_stdout_on_error_witness :
    (runMain [] ("abc")).stdout = [] ∧ (runMain [] ("abc")).exitCode = 1 :=
  no_stdout_on_error [] ("abc") ⟨("StopIteration"), rfl⟩

/-- Claim C1, counterexample: the emitted statement is not the single-line
string the claim describes; it is a two-line string with a trailing space
after the column list, a newline, and 23 spaces before `VALUES`. -/
theorem statement_not_single_line :
    process_transcription [["h"], ["0.0", "1.5", "Hello"]] ("abc123") ≠
      Except.ok
        [("INSERT INTO transcriptions (content_id, text, start_time, end_time) VALUES (")
            ++ sqs ++ ("abc123") ++ sqs ++ (", ") ++ sqs ++ ("Hello") ++ sqs
            ++ (", 0.0, 1.5);")] ∧
    process_transcription [["h"], ["0.0", "1.5", "Hello"]] ("abc123") =
      Except.ok
        [("INSERT INTO transcriptions (content_id, text, start_time, end_time) \n                       VALUES (")
            ++ sqs ++ ("abc123") ++ sqs ++ (", ") ++ sqs ++ ("Hello") ++ sqs
            ++ (", 0.0, 1.5);")] := by
  constructor
  · decide
  · rfl

/-- Claim C1 as amended: for every row passing validation the appended
statement is exactly the TWO-line string: the INSERT head, a trailing
space, a newline, 23 spaces, then the VALUES clause with content id and
escaped text single-quoted and start/end inserted verbatim unquoted. -/
theorem statement_exact_format (cid start endT text : String) (rest r0 : List String)
    (h1 : start ≠ ("")) (h2 : endT ≠ ("")) (h3 : text ≠ ("")) :
    process_transcription [r0, start :: endT :: text :: rest] cid =
      Except.ok
        [("INSERT INTO transcriptions (content_id, text, start_time, end_time) \n                       VALUES (")
            ++ sqs ++ cid ++ sqs ++ (", ") ++ sqs ++ escapedText text ++ sqs
            ++ (", ") ++ start ++ (", ") ++ endT ++ (");")] :=
  process_pair cid start endT text rest r0 h1 h2 h3

theorem statement_exact_format_witness :
    process_transcription [["h"], [("0.0"), ("1.5"), ("Hi")]] ("abc") =
      Except.ok
        [("INSERT INTO transcriptions (content_id, text, start_time, end_time) \n                       VALUES (")
            ++ sqs ++ ("abc") ++ sqs ++ (", ") ++ sqs ++ escapedText ("Hi") ++ sqs
            ++ (", ") ++ ("0.0") ++ (", ") ++ ("1.5") ++ (");")] :=
  statement_exact_format ("abc") ("0.0") ("1.5") ("Hi") [] [("h")]
    (by decide) (by decide) (by decide)

/-! ### Escaping and stripping lemmas -/

theorem escQuotes_count (l : List Char) : (escQuotes l).count sqc = 2 * l.count sqc := by
  induction l with
  | nil => rfl
  | cons c cs ih =>
    by_cases h : c = sqc
    · subst h
      simp [escQuotes, List.count_cons, ih]
      omega
    · have hb : (c == sqc) = false := by
        cases e : c == sqc
        · rfl
        · exact absurd (eq_of_beq e) h
      simp [escQuotes, h, List.count_cons, hb, ih]

theorem count_dropWhile_eq (c : Char) (hc : pyIsSpace c = false) (l : List Char) :
    (l.dropWhile pyIsSpace).count c = l.count c := by
  induction l with
  | nil => rfl
  | cons a t ih =>
    cases h : pyIsSpace a
    · simp [List.dropWhile_cons, h]
    · have hac : (a == c) = false := by
        cases e : a == c
        · rfl
        · rw [eq_of_beq e] at h
          rw [h] at hc
          exact absurd hc (by simp)
      simp [List.dropWhile_cons, h, ih, List.count_cons, hac]

theorem count_dropTrailWs_eq (c : Char) (hc : pyIsSpace c = false) (l : List Char) :
    (dropTrailWs l).count c = l.count c := by
  unfold dropTrailWs
  rw [List.count_reverse, count_dropWhile_eq c hc, List.count_reverse]

theorem pyStripL_count (c : Char) (hc : pyIsSpace c = false) (l : List Char) :
    (pyStripL l).count c = l.count c := by
  unfold pyStripL
  rw [count_dropTrailWs_eq c hc, count_dropWhile_eq c hc]

/-- Claim C3: escaping doubles single quotes — for text with `n` single-quote
characters, the escaped (and stripped) text has exactly `2n`. -/
theorem escaped_quote_count (t : String) :
    (escapedText t).data.count sqc = 2 * t.data.count sqc := by
  show (pyStripL (escQuotes t.data)).count sqc = 2 * t.data.count sqc
  rw [pyStripL_count sqc (by decide), escQuotes_count]

theorem escQuotes_append (l1 l2 : List Char) :
    escQuotes (l1 ++ l2) = escQuotes l1 ++ escQuotes l2 := by
  induction l1 with
  | nil => rfl
  | cons c cs ih =>
    by_cases h : c = sqc
    · simp [escQuotes, h, ih]
    · simp [escQuotes, h, ih]

theorem escQuotes_reverse (l : List Char) :
    escQuotes l.reverse = (escQuotes l).reverse := by
  induction l with
  | nil => rfl
  | cons c cs ih =>
    by_cases h : c = sqc
    · simp [List.reverse_cons, escQuotes_append, escQuotes, h, ih]
    · simp [List.reverse_cons, escQuotes_append, escQuotes, h, ih]

theorem dropWhile_escQuotes (l : List Char) :
    (escQuotes l).dropWhile pyIsSpace = escQuotes (l.dropWhile pyIsSpace) := by
  induction l with
  | nil => rfl
  | cons c cs ih =>
    by_cases h : c = sqc
    · subst h
      simp [escQuotes, List.dropWhile_cons, show pyIsSpace sqc = false by decide]
    · cases hs : pyIsSpace c
      · simp [escQuotes, h, List.dropWhile_cons, hs]
      · simp [escQuotes, h, List.dropWhile_cons, hs, ih]

theorem pyStripL_escQuotes (l : List Char) :
    pyStripL (escQuotes l) = escQuotes (pyStripL l) := by
  unfold pyStripL dropTrailWs
  rw [dropWhile_escQuotes, ← escQuotes_reverse, dropWhile_escQuotes, ← escQuotes_reverse]

theorem head_dropWhile_false {α : Type} (p : α → Bool) (l : List α) (c : α)
    (h : (l.dropWhile p).head? = some c) : p c = false := by
  induction l with
  | nil => simp [List.dropWhile] at h
  | cons a t ih =>
    cases hs : p a
    · rw [List.dropWhile_cons, hs] at h
      simp at h
      rw [← h]
      exact hs
    · rw [List.dropWhile_cons, hs] at h
      simp only [if_pos] at h
      exact ih h

theorem dropTrailWs_decomp (l : List Char) : ∃ s, l = dropTrailWs l ++ s := by
  refine ⟨(l.reverse.takeWhile pyIsSpace).reverse, ?_⟩
  unfold dropTrailWs
  conv_lhs => rw [← l.reverse_reverse,
    ← List.takeWhile_append_dropWhile pyIsSpace l.reverse]
  rw [List.reverse_append]

theorem pyStripL_head (l : List Char) (c : Char) (h : (pyStripL l).head? = some c) :
    pyIsSpace c = false := by
  unfold pyStripL at h
  obtain ⟨s, hs⟩ := dropTrailWs_decomp (l.dropWhile pyIsSpace)
  have hm : (l.dropWhile pyIsSpace).head? = some c := by
    rw [hs, List.head?_append, h]
    rfl
  exact head_dropWhile_false pyIsSpace l c hm

theorem pyStripL_getLast (l : List Char) (c : Char)
    (h : (pyStripL l).getLast? = some c) : pyIsSpace c = false := by
  unfold pyStripL dropTrailWs at h
  rw [List.getLast?_eq_head?_reverse, List.reverse_reverse] at h
  exact head_dropWhile_false pyIsSpace _ c h

/-- Claim C6: the escaped text has no leading or trailing whitespace, and
stripping after escaping equals escaping the stripped original — internal
whitespace is untouched, only the ends are trimmed and only quotes are
rewritten. -/
theorem escaped_text_whitespace (t : String) :
    (∀ c, (escapedText t).data.head? = some c → pyIsSpace c = false) ∧
    (∀ c, (escapedText t).data.getLast? = some c → pyIsSpace c = false) ∧
    escapedText t = String.mk (escQuotes (pyStripL t.data)) := by
  refine ⟨fun c hc => pyStripL_head _ c hc, fun c hc => pyStripL_getLast _ c hc, ?_⟩
  show String.mk (pyStripL (escQuotes t.data)) = _
  rw [pyStripL_escQuotes]

theorem escaped_text_whitespace_witness :
    pyIsSpace ('a') = false ∧
    escapedText (("  a ")) = String.mk (escQuotes (pyStripL (("  a ")).data)) :=
  ⟨(escaped_text_whitespace (("  a "))).1 ('a') (by decide),
   (escaped_text_whitespace (("  a "))).2.2⟩

/-! ### Whitespace-only text (claim C8) -/

theorem escQuotes_no_quote (l : List Char) (h : ∀ c ∈ l, c ≠ sqc) :
    escQuotes l = l := by
  induction l with
  | nil => rfl
  | cons a t ih =>
    have ha : a ≠ sqc := h a (by simp)
    simp [escQuotes, ha, ih (fun c hc => h c (List.mem_cons_of_mem a hc))]

theorem escapedText_all_ws (t : String) (h : ∀ c ∈ t.data, pyIsSpace c = true) :
    escapedText t = ("") := by
  have hq : ∀ c ∈ t.data, c ≠ sqc := by
    intro c hc he
    have hc2 := h c hc
    rw [he] at hc2
    exact absurd hc2 (by decide)
  show String.mk (pyStripL (escQuotes t.data)) = ("")
  rw [escQuotes_no_quote t.data hq]
  unfold pyStripL
  rw [List.dropWhile_eq_nil_iff.mpr h]
  rfl

/-- Claim C8: a row whose text is non-empty but entirely whitespace is NOT
skipped — it passes the emptiness check (which comes before any trimming),
and since stripping happens after escaping, the emitted statement carries
the empty text literal. -/
theorem whitespace_only_text_emitted (cid start endT text : String)
    (rest r0 : List String)
    (h1 : start ≠ ("")) (h2 : endT ≠ ("")) (h3 : text ≠ (""))
    (hws : ∀ c ∈ text.data, pyIsSpace c = true) :
    escapedText text = ("") ∧
    process_transcription [r0, start :: endT :: text :: rest] cid =
      Except.ok
        [("INSERT INTO transcriptions (content_id, text, start_time, end_time) \n                       VALUES (")
            ++ sqs ++ cid ++ sqs ++ (", ") ++ sqs ++ sqs
            ++ (", ") ++ start ++ (", ") ++ endT ++ (");")] := by
  have he := escapedText_all_ws text hws
  refine ⟨he, ?_⟩
  rw [process_pair cid start endT text rest r0 h1 h2 h3, he]
  simp [mkSql, String.append_empty]

theorem whitespace_only_text_emitted_witness :
    escapedText (("   ")) = ("") ∧
    process_transcription [[("h")], [("0.0"), ("1.5"), ("   ")]] ("abc") =
      Except.ok
        [("INSERT INTO transcriptions (content_id, text, start_time, end_time) \n                       VALUES (")
            ++ sqs ++ ("abc") ++ sqs ++ (", ") ++ sqs ++ sqs
            ++ (", ") ++ ("0.0") ++ (", ") ++ ("1.5") ++ (");")] :=
  whitespace_only_text_emitted ("abc") ("0.0") ("1.5") ("   ") [] [("h")]
    (by decide) (by decide) (by decide) (by decide)

/-! ### Order preservation (claim C7) -/

theorem filter_map_get_countP {α β : Type} (p : α → Bool) (f : α → β) :
    ∀ (l : List α) (i : Nat) (hi : i < l.length), p (l.get ⟨i, hi⟩) = true →
      ((l.filter p).map f).get? ((l.take i).countP p) = some (f (l.get ⟨i, hi⟩)) := by
  intro l
  induction l with
  | nil =>
    intro i hi
    exact absurd hi (by simp)
  | cons a t ih =>
    intro i hi hp
    cases i with
    | zero =>
      have hpa : p a = true := hp
      simp [List.filter_cons, hpa]
    | succ i' =>
      have hi' : i' < t.length := by simpa using hi
      have hp' : p (t.get ⟨i', hi'⟩) = true := hp
      rw [List.take_succ_cons, List.countP_cons]
      cases hpa : p a
      · simp only [if_neg (by simp [hpa] : ¬ (p a = true)), Nat.add_zero,
          List.filter_cons, hpa]
        exact ih i' hi' hp'
      · simp only [if_pos rfl, List.filter_cons, hpa, List.map_cons,
          List.get?_cons_succ]
        exact ih i' hi' hp'

theorem countP_take_lt {α : Type} (p : α → Bool) :
    ∀ (l : List α) (i j : Nat), i < j → (hi : i < l.length) →
      p (l.get ⟨i, hi⟩) = true → (l.take i).countP p < (l.take j).countP p := by
  intro l
  induction l with
  | nil =>
    intro i j hij hi
    exact absurd hi (by simp)
  | cons a t ih =>
    intro i j hij hi hp
    cases j with
    | zero => exact absurd hij (by omega)
    | succ j' =>
      cases i with
      | zero =>
        have hpa : p a = true := hp
        rw [List.take_succ_cons, List.countP_cons, hpa]
        simp
      | succ i' =>
        have hi' : i' < t.length := by simpa using hi
        have hij' : i' < j' := by omega
        have hp' : p (t.get ⟨i', hi'⟩) = true := hp
        rw [List.take_succ_cons, List.take_succ_cons, List.countP_cons,
          List.countP_cons]
        have hlt := ih i' j' hij' hi' hp'
        omega

/-- Claim C7: output statements appear in the same relative order as their
source rows — for valid rows at positions `i < j`, the statement of row `i`
sits at a strictly smaller output index than that of row `j`. -/
theorem output_order_preserved (cid : String) (r0 : List String)
    (rows : List (List String)) (i j : Nat) (hij : i < j)
    (hi : i < rows.length) (hj : j < rows.length)
    (vi : validRow (rows.get ⟨i, hi⟩) = true)
    (vj : validRow (rows.get ⟨j, hj⟩) = true) :
    ∃ out, process_transcription (r0 :: rows) cid = Except.ok out ∧
      ∃ q q', q < q' ∧
        out.get? q = some (stmtOf cid (rows.get ⟨i, hi⟩)) ∧
        out.get? q' = some (stmtOf cid (rows.get ⟨j, hj⟩)) :=
  ⟨(rows.filter validRow).map (stmtOf cid), process_cons cid r0 rows,
    (rows.take i).countP validRow, (rows.take j).countP validRow,
    countP_take_lt validRow rows i j hij hi vi,
    filter_map_get_countP validRow (stmtOf cid) rows i hi vi,
    filter_map_get_countP validRow (stmtOf cid) rows j hj vj⟩

theorem output_order_preserved_witness :
    ∃ out,
      process_transcription
          [[("h")], [("0.0"), ("1.5"), ("a")], [("2.0"), ("3.0"), ("b")]] ("c") =
        Except.ok out ∧
      ∃ q q', q < q' ∧
        out.get? q =
          some (stmtOf ("c")
            ([[("0.0"), ("1.5"), ("a")], [("2.0"), ("3.0"), ("b")]].get
              ⟨0, by decide⟩)) ∧
        out.get? q' =
          some (stmtOf ("c")
            ([[("0.0"), ("1.5"), ("a")], [("2.0"), ("3.0"), ("b")]].get
              ⟨1, by decide⟩)) :=
  output_order_preserved ("c") [("h")]
    [[("0.0"), ("1.5"), ("a")], [("2.0"), ("3.0"), ("b")]] 0 1
    (by decide) (by decide) (by decide) (by decide) (by decide)
